import Mathlib

/-!
Verification development for the PDF outline extraction pipeline
(`app.py`, `config.py`, `process_pdfs.py`).

The text-fragment classification core is shallowly embedded: text fragments
(spans) are records of text, font size, style flags and bounding box; font
sizes and coordinates are rationals; the per-page dominant font size, the
title detector, the heading candidate scorer and the outline assembler are
translated function by function from the source.  External collaborators
(the PDF decoder, the NLTK tokenizer/stopword set and edit distance) are
modelled at their interface, as the specification scopes them.
-/

attribute [local semireducible] Rat.mul Rat.add Rat.sub Rat.inv

set_option maxRecDepth 4000

/-- The embedding of an integer into the rationals, written so that it
reduces inside the kernel (the generic cast instances do not). -/
def qOfInt (n : ℤ) : ℚ := ⟨n, 1, one_ne_zero, Nat.coprime_one_right _⟩

/-- The embedding of a natural number into the rationals. -/
def qOfNat (n : ℕ) : ℚ := qOfInt n

/-- Python `round`: round half to even (banker's rounding), on exact rationals. -/
def pyRound (q : ℚ) : ℤ :=
  let f := Rat.floor q
  if q - qOfInt f < qOfNat 1 / 2 then f
  else if qOfNat 1 / 2 < q - qOfInt f then f + 1
  else if f % 2 = 0 then f else f + 1

/-- Python `str.lower()` (ASCII model). -/
def pyLower (s : String) : String := ⟨s.data.map Char.toLower⟩

/-- Python `str.strip()`: drop leading and trailing whitespace. -/
def pyStrip (s : String) : String :=
  ⟨((s.data.dropWhile Char.isWhitespace).reverse.dropWhile Char.isWhitespace).reverse⟩

/-- Anchored match of a literal pattern at the start of a character list. -/
def listStartsWith (s p : List Char) : Bool := p.isPrefixOf s

/-- Helper for Python `str.split()`: walk the characters keeping the current
word (reversed) in an accumulator. -/
def pySplitAux : List Char → List Char → List String
  | [], acc => if acc.isEmpty then [] else [⟨acc.reverse⟩]
  | c :: r, acc =>
      if c.isWhitespace then
        if acc.isEmpty then pySplitAux r [] else ⟨acc.reverse⟩ :: pySplitAux r []
      else pySplitAux r (c :: acc)

/-- Python `str.split()` with no argument: split on whitespace runs, dropping empties. -/
def pySplit (s : String) : List String := pySplitAux s.data []

/-- Python `str.isupper()`: at least one cased character and every cased character
uppercase (cased is modelled as alphabetic). -/
def pyIsUpper (s : String) : Bool :=
  s.toList.any Char.isAlpha && s.toList.all (fun c => !c.isAlpha || c.isUpper)

/-- Python `str.isdigit()`: non-empty and all digits. -/
def pyIsDigitStr (s : String) : Bool :=
  !s.data.isEmpty && s.toList.all Char.isDigit

/-- Python `str.isalpha()`: non-empty and all alphabetic. -/
def pyIsAlphaStr (s : String) : Bool :=
  !s.data.isEmpty && s.toList.all Char.isAlpha

/-- Modelled from the spec: the external string-distance primitive
(`nltk.edit_distance`, standard Levenshtein distance with unit costs),
computed by the usual dynamic program over rows. -/
def levRowAux (x : Char) : List Char → List ℕ → ℕ → ℕ → List ℕ
  | [], _, _, _ => []
  | y :: ys, ps, diag, left =>
      match ps with
      | p :: rest =>
          let q := min (left + 1) (min (p + 1) (diag + (if x = y then 0 else 1)))
          q :: levRowAux x ys rest p q
      | [] => []

/-- One row update of the Levenshtein dynamic program. -/
def levFold (b : List Char) (row : List ℕ) (x : Char) : List ℕ :=
  match row with
  | p :: ps => (p + 1) :: levRowAux x b ps p (p + 1)
  | [] => []

/-- Modelled from the spec: `nltk.edit_distance` on strings (Levenshtein). -/
def edit_distance (a b : String) : ℕ :=
  (a.toList.foldl (levFold b.toList) (List.range (b.toList.length + 1))).getLastD 0

/-- Modelled from the spec: the external NLP tokenizer (`nltk.word_tokenize`),
which on the lowercase heading texts considered here splits on whitespace. -/
def word_tokenize (s : String) : List String := pySplit s

/-- Modelled from the spec: the external English stopword set
(`nltk.corpus.stopwords.words("english")`), at its interface: a fixed word list. -/
def englishStopwords : List String :=
  ["i", "me", "my", "we", "our", "you", "he", "him", "she", "her", "it", "they",
   "them", "a", "an", "the", "and", "but", "if", "or", "because", "as", "until",
   "while", "of", "at", "by", "for", "with", "about", "against", "between",
   "into", "through", "during", "before", "after", "above", "below", "to",
   "from", "up", "down", "in", "out", "on", "off", "over", "under", "again",
   "then", "once", "here", "there", "when", "where", "why", "how", "all", "any",
   "both", "each", "few", "more", "most", "other", "some", "such", "no", "nor",
   "not", "only", "own", "same", "so", "than", "too", "very", "s", "t", "can",
   "will", "just", "don", "should", "now", "is", "are", "was", "were", "be",
   "been", "being", "have", "has", "had", "having", "do", "does", "did", "doing"]

/- ### The ignore patterns of `DEFAULT_CONFIG` (config.py)

Each pattern is matched with `re.match` (anchored at the start) and
`re.IGNORECASE`; matching is modelled on the lowercased character list.
Several of the patterns are written with doubled backslashes inside raw
strings, so in them `\\` matches a literal backslash and `d`, `s` are
literal letters; the matchers below reproduce that behaviour exactly. -/

/-- Pattern `^\\d+\\.$` as the source writes it: a literal backslash, one or
more letters `d`, a literal backslash and one arbitrary non-newline character. -/
def ig1 (l : List Char) : Bool :=
  match l with
  | '\\' :: c :: r =>
      c == 'd' &&
      (match (c :: r).dropWhile (fun x => x == 'd') with
       | ['\\', x] => x != '\n'
       | _ => false)
  | _ => false

/-- Pattern `^Fig\\.\\s*\\d+` as the source writes it (prefix match). -/
def ig2 (l : List Char) : Bool :=
  match l with
  | 'f' :: 'i' :: 'g' :: '\\' :: a :: '\\' :: r =>
      a != '\n' &&
      (match r.dropWhile (fun x => x == 's') with
       | '\\' :: d :: _ => d == 'd'
       | _ => false)
  | _ => false

/-- Pattern `^Table\\s*\\d+` as the source writes it (prefix match). -/
def ig3 (l : List Char) : Bool :=
  match l with
  | 't' :: 'a' :: 'b' :: 'l' :: 'e' :: '\\' :: r =>
      (match r.dropWhile (fun x => x == 's') with
       | '\\' :: d :: _ => d == 'd'
       | _ => false)
  | _ => false

/-- Pattern `^\\s*$` as the source writes it: a literal backslash then letters `s`. -/
def ig4 (l : List Char) : Bool :=
  match l with
  | '\\' :: r => r.all (fun x => x == 's')
  | _ => false

/-- Pattern `^Page\\s*\\d+` as the source writes it (prefix match). -/
def ig5 (l : List Char) : Bool :=
  match l with
  | 'p' :: 'a' :: 'g' :: 'e' :: '\\' :: r =>
      (match r.dropWhile (fun x => x == 's') with
       | '\\' :: d :: _ => d == 'd'
       | _ => false)
  | _ => false

/-- Pattern `^\\d+\\s*$` as the source writes it. -/
def ig6 (l : List Char) : Bool :=
  match l with
  | '\\' :: c :: r =>
      c == 'd' &&
      (match (c :: r).dropWhile (fun x => x == 'd') with
       | '\\' :: rs => rs.all (fun x => x == 's')
       | _ => false)
  | _ => false

/-- Pattern `SCTR\\\s*\\\"s`: literal backslash, whitespace, backslash, quote, `s`. -/
def ig7 (l : List Char) : Bool :=
  match l with
  | 's' :: 'c' :: 't' :: 'r' :: '\\' :: r =>
      (match r.dropWhile Char.isWhitespace with
       | '\\' :: '"' :: 's' :: _ => true
       | _ => false)
  | _ => false

/-- The combined `ignore_patterns` matcher of `DEFAULT_CONFIG`:
true when any of the nine configured patterns matches at the start of the text. -/
def defaultIgnoreMatch (s : String) : Bool :=
  let l := (pyLower s).data
  ig1 l || ig2 l || ig3 l || ig4 l || ig5 l || ig6 l || ig7 l ||
  listStartsWith l "pune institute of computer technology".data ||
  listStartsWith l "department of information technology".data

/- ### Heading patterns used by `is_likely_heading` (app.py lines 56-60) -/

/-- Zero or more `.digits` groups, greedily consumed (fueled recursion). -/
def numGroups : ℕ → List Char → List Char
  | 0, l => l
  | fuel + 1, l =>
      match l with
      | '.' :: c :: r =>
          if c.isDigit then numGroups fuel ((c :: r).dropWhile Char.isDigit)
          else l
      | _ => l

/-- Pattern `^\d+(\.\d+)*\s+[A-Z]` with `re.IGNORECASE` (so the final class
matches any letter): digits, dotted digit groups, whitespace, a letter. -/
def matchNumberedSection (s : String) : Bool :=
  match s.toList with
  | c :: r =>
      c.isDigit &&
      (let rest1 := r.dropWhile Char.isDigit
       let rest2 := numGroups (rest1.length + 1) rest1
       match rest2 with
       | w :: r2 =>
           w.isWhitespace &&
           (match r2.dropWhile Char.isWhitespace with
            | a :: _ => a.isAlpha
            | [] => false)
       | [] => false)
  | [] => false

/-- Word characters for the regex `\b` boundary: letters, digits, underscore. -/
def isWordChar (c : Char) : Bool := c.isAlphanum || c == '_'

/-- Tail `\s+\d+\b` of the labeled-unit pattern: whitespace, digits, then a
word boundary (end of string or a non-word character). -/
def labUnitTail : List Char → Bool
  | c :: r =>
      c.isWhitespace &&
      (match r.dropWhile Char.isWhitespace with
       | d :: dr =>
           d.isDigit &&
           (match dr.dropWhile Char.isDigit with
            | [] => true
            | e :: _ => !isWordChar e)
       | [] => false)
  | [] => false

/-- The labeled-unit alternatives, lowercased. -/
def labeledWords : List String :=
  ["chapter", "section", "part", "assignment", "exercise", "lab", "practical",
   "experiment"]

/-- Pattern `^(Chapter|Section|Part|Assignment|Exercise|Lab|Practical|Experiment)\s+\d+\b`
with `re.IGNORECASE`. -/
def matchLabeledUnit (s : String) : Bool :=
  let l := (pyLower s).data
  labeledWords.any (fun w => l.take w.length == w.toList && labUnitTail (l.drop w.length))

/-- The canonical-heading-word alternatives, lowercased. -/
def canonicalHeads : List String :=
  ["introduction", "conclusion", "summary", "overview", "background",
   "methodology", "results", "discussion", "aim", "theory",
   "problem statement", "assignment no"]

/-- Pattern `^(Introduction|Conclusion|...|Assignment No)` with `re.IGNORECASE`:
one of the canonical heading words at the start of the text. -/
def matchCanonicalHead (s : String) : Bool :=
  canonicalHeads.any (fun w => listStartsWith (pyLower s).data w.data)

/-- One `[A-Z][a-z]+` word; returns the rest of the input on success. -/
def tcTakeWord : List Char → Option (List Char)
  | c :: d :: r =>
      if c.isUpper && d.isLower then some (r.dropWhile Char.isLower) else none
  | _ => none

/-- After a complete title-case word: end of input, or whitespace and a further
word, repeated (fueled recursion). -/
def tcAfterFirst : ℕ → List Char → Bool
  | 0, _ => false
  | _ + 1, [] => true
  | fuel + 1, c :: r =>
      c.isWhitespace &&
      (match tcTakeWord ((c :: r).dropWhile Char.isWhitespace) with
       | some rest => tcAfterFirst fuel rest
       | none => false)

/-- Pattern `^[A-Z][a-z]+(\s+[A-Z][a-z]+)*$` (no IGNORECASE). -/
def matchTitleCaseRe (s : String) : Bool :=
  match tcTakeWord s.toList with
  | some rest => tcAfterFirst (rest.length + 1) rest
  | none => false

/- ### Configuration (config.py) -/

/-- The absolute `HEADING_FONT_SIZE_THRESHOLDS` of config.py. -/
structure HeadingThresholds where
  H1 : ℚ
  H2 : ℚ
  H3 : ℚ

/-- `HEADING_FONT_SIZE_THRESHOLDS = {"H1": 18, "H2": 14, "H3": 12}`. -/
def headingFontSizeThresholds : HeadingThresholds := ⟨18, 14, 12⟩

/-- All `HEADING_KEYWORDS` values of config.py (the level tags are not used by
`is_likely_heading`, which only tests membership across every level). -/
def allHeadingKeywords : List String :=
  ["chapter", "part", "section",
   "introduction", "conclusion", "summary", "references",
   "theory", "methodology", "results", "discussion"]

/-- The configuration record (`DEFAULT_CONFIG` keys used by app.py). -/
structure Config where
  minTitleFontFrac : ℚ
  minHeadingFontFrac : ℚ
  h1Mult : ℚ
  h2Mult : ℚ
  h3Mult : ℚ
  boldWeightFactor : ℚ
  lineHeightFrac : ℚ
  maxHeadingChars : ℕ
  minHeadingChars : ℕ
  positionWeight : ℚ
  semanticWeight : ℚ
  fontWeight : ℚ
  titleSearchPages : ℕ
  minTitlePositionScore : ℚ
  ignoreMatches : String → Bool

/-- `DEFAULT_CONFIG` of config.py. -/
def defaultConfig : Config where
  minTitleFontFrac := qOfNat 1 / 50
  minHeadingFontFrac := 3/200
  h1Mult := 3/2
  h2Mult := 6/5
  h3Mult := qOfNat 1
  boldWeightFactor := 6/5
  lineHeightFrac := 4/5
  maxHeadingChars := 120
  minHeadingChars := 3
  positionWeight := qOfNat 1 / 10
  semanticWeight := 3/10
  fontWeight := 3/5
  titleSearchPages := 5
  minTitlePositionScore := 7/10
  ignoreMatches := defaultIgnoreMatch

/- ### The shared heading-likeness predicate `is_likely_heading` (app.py lines 32-96) -/

/-- Steps 3 of the predicate: the three heading regexes. -/
def patternHit (t : String) : Bool :=
  matchNumberedSection t || matchLabeledUnit t || matchCanonicalHead t

/-- Title-mode rule: short all-caps phrase (at most 5 words). -/
def titleUpperHit (t : String) : Bool :=
  pyIsUpper t && decide ((pySplit t).length ≤ 5)

/-- Title-mode rule: title-case phrase by the strict regex, at most 7 words. -/
def titleTcHit (t : String) : Bool :=
  matchTitleCaseRe t && decide ((pySplit t).length ≤ 7)

/-- General rule: all-caps, at most 4 words, more than 5 characters. -/
def genUpperHit (t : String) : Bool :=
  pyIsUpper t && decide ((pySplit t).length ≤ 4) && decide (5 < t.length)

/-- General rule: 1 to 6 words, every word starting with an uppercase letter,
and the whole text not all-caps. -/
def titleCaseWordsHit (t : String) : Bool :=
  let ws := pySplit t
  decide (1 ≤ ws.length) && decide (ws.length ≤ 6) &&
  ws.all (fun w => match w.toList with | c :: _ => c.isUpper | [] => false) &&
  !pyIsUpper t

/-- Keyword rule: tokenize the lowercased text, strip stopwords and
non-alphabetic tokens, and test membership of any configured heading keyword. -/
def keywordHit (t : String) : Bool :=
  let toks := word_tokenize (pyLower t)
  let filtered := toks.filter (fun w => !englishStopwords.contains w && pyIsAlphaStr w)
  allHeadingKeywords.any (fun k => filtered.contains k)

/-- `is_likely_heading(text, config, font_size, dominant_font_size,
is_bold_text, page_height, is_title_candidate)` of app.py.  The `pageHeight`
argument is accepted but never read, exactly as in the source. -/
def is_likely_heading (text : String) (cfg : Config) (fontSize dominantFontSize : ℚ)
    (isBoldText : Bool) (pageHeight : ℚ) (isTitleCandidate : Bool) : Bool :=
  let t := pyStrip text
  if t = "" ∨ t.length < cfg.minHeadingChars then false
  else if cfg.maxHeadingChars < t.length then false
  else if cfg.ignoreMatches t then false
  else if patternHit t then true
  else if isTitleCandidate && titleUpperHit t then true
  else if isTitleCandidate && titleTcHit t then true
  else if genUpperHit t then true
  else if titleCaseWordsHit t then true
  else if keywordHit t then true
  else decide (qOfNat 0 < dominantFontSize) &&
       decide (dominantFontSize * (6/5) < fontSize) && isBoldText

/-- The text (and mode) dependent rules 1-7 of `is_likely_heading` all fail,
so evaluation falls through to the final font-size/boldness rule. -/
def reachesFontRule (text : String) (cfg : Config) (isTitleCandidate : Bool) : Prop :=
  let t := pyStrip text
  ¬(t = "" ∨ t.length < cfg.minHeadingChars) ∧
  ¬(cfg.maxHeadingChars < t.length) ∧
  cfg.ignoreMatches t = false ∧
  patternHit t = false ∧
  (isTitleCandidate && titleUpperHit t) = false ∧
  (isTitleCandidate && titleTcHit t) = false ∧
  genUpperHit t = false ∧
  titleCaseWordsHit t = false ∧
  keywordHit t = false

instance (text : String) (cfg : Config) (tm : Bool) :
    Decidable (reachesFontRule text cfg tm) := by
  unfold reachesFontRule; infer_instance

/- ### Data model (the PDF decoder interface) -/

/-- One text span as delivered by the external PDF decoder: text, font size,
style flags and bounding box `(x0, y0, x1, y1)`. -/
structure Span where
  text : String
  size : ℚ
  flags : ℕ
  x0 : ℚ
  y0 : ℚ
  x1 : ℚ
  y1 : ℚ
deriving DecidableEq

/-- One page: geometry plus its spans in stream order. -/
structure Page where
  width : ℚ
  height : ℚ
  spans : List Span
deriving DecidableEq

/-- A document: the optional metadata title and the pages in order. -/
structure Doc where
  metaTitle : Option String
  pages : List Page
deriving DecidableEq

/-- `is_bold(span)`: bit 0 of the style flags. -/
def is_bold (sp : Span) : Bool := (sp.flags &&& 1) != 0

/-- Heading levels of outline entries. -/
inductive HLevel where
  | H1
  | H2
  | H3
deriving DecidableEq, Repr

/-- One persisted outline entry. -/
structure Entry where
  level : HLevel
  text : String
  page : ℕ
deriving DecidableEq, Repr

/-- The document-level result of `extract_outline`. -/
structure Result where
  title : String
  outline : List Entry
deriving DecidableEq, Repr

/- ### FontProfiler (app.py lines 111-124) -/

/-- `Counter(font_sizes).most_common(1)[0][0]`: the most frequent size, ties
broken in favour of the first-encountered value; `0` for an empty page. -/
def dominantFontSize (sizes : List ℚ) : ℚ :=
  match sizes.foldl (fun acc s => if acc.contains s then acc else acc ++ [s]) [] with
  | [] => qOfNat 0
  | d :: ds => ds.foldl (fun best x => if sizes.count best < sizes.count x then x else best) d

/-- `page_dominant_font_sizes.get(i, 0)` for 0-based page index `i`. -/
def domOf (doc : Doc) (i : ℕ) : ℚ :=
  match doc.pages.get? i with
  | some pg => dominantFontSize (pg.spans.map Span.size)
  | none => qOfNat 0

/- ### TitleDetector (app.py lines 126-205) -/

/-- A title candidate as collected by the title scan. -/
structure TCand where
  text : String
  fontSize : ℚ
  posScore : ℚ
  page : ℕ
  bold : Bool
  y : ℚ
deriving DecidableEq, Repr

/-- The gate of the title scan (app.py lines 145-170) applied to one span of
page index `i` (1-based page number `pageNo`). -/
def titleGate (cfg : Config) (dom pw ph : ℚ) (pageNo : ℕ) (sp : Span) : Option TCand :=
  let fontSize := sp.size
  let text := pyStrip sp.text
  let xc := (sp.x0 + sp.x1) / 2
  let y := sp.y0
  let centerScore := qOfNat 1 - |xc - pw/2| / (pw/2)
  let topScore := qOfNat 1 - y / ph
  let posScore := centerScore * (7/10) + topScore * (3/10)
  if ph * cfg.minTitleFontFrac < fontSize ∧
     (cfg.minHeadingChars : ℕ) < text.length ∧
     ¬ pyIsDigitStr text = true ∧
     cfg.minTitlePositionScore < posScore ∧
     is_likely_heading text cfg fontSize dom (is_bold sp) ph true = true then
    some ⟨text, fontSize, posScore, pageNo, is_bold sp, y⟩
  else none

/-- The pages visited by the title scan: the first `title_search_pages` pages. -/
def scannedPages (cfg : Config) (doc : Doc) : List (ℕ × Page) :=
  doc.pages.enum.take cfg.titleSearchPages

/-- All title candidates, in scan order. -/
def titleCandsOf (cfg : Config) (doc : Doc) : List TCand :=
  (scannedPages cfg doc).flatMap
    (fun p => p.2.spans.filterMap (titleGate cfg (domOf doc p.1) p.2.width p.2.height (p.1 + 1)))

/-- The value held by the loop variable `span` after the title scan: the last
span iterated over, read (stale) by the re-scoring step at app.py line 196. -/
def staleScanBold (cfg : Config) (doc : Doc) : Bool :=
  ((((scannedPages cfg doc).flatMap (fun p => p.2.spans)).getLast?).map is_bold).getD false

/-- The value held by the loop variable `page_height` after the title scan:
the height of the last scanned page (passed on, unused, at line 196). -/
def staleScanHeight (cfg : Config) (doc : Doc) : ℚ :=
  (((scannedPages cfg doc).getLast?).map (fun p => p.2.height)).getD (qOfNat 0)

/-- The descending sort order on `(font_size, position_score, is_bold)` used
at app.py line 175: `a` may precede `b` when `b`'s key is lexicographically
at most `a`'s (stable sorting by this total preorder models Python's
`sort(key=..., reverse=True)`). -/
def tdesc (a b : TCand) : Prop :=
  b.fontSize < a.fontSize ∨
  (b.fontSize = a.fontSize ∧
    (b.posScore < a.posScore ∨
      (b.posScore = a.posScore ∧
        (if b.bold then (1:ℕ) else 0) ≤ (if a.bold then (1:ℕ) else 0))))

instance : DecidableRel tdesc := fun a b => by unfold tdesc; infer_instance

/-- The title candidates sorted descending by `(font_size, position_score, is_bold)`. -/
def sortedTitleCands (cfg : Config) (doc : Doc) : List TCand :=
  List.insertionSort tdesc (titleCandsOf cfg doc)

/-- The near-duplicate test of app.py lines 183-185: same page, vertically
within `line_height_threshold_ratio` times the candidate's font size, and
text within normalized edit distance 0.3. -/
def titleDup (cfg : Config) (c e : TCand) : Prop :=
  c.page = e.page ∧
  |c.y - e.y| < cfg.lineHeightFrac * c.fontSize ∧
  qOfNat (edit_distance (pyLower c.text) (pyLower e.text)) <
    qOfNat (max c.text.length e.text.length) * (3/10)

instance (cfg : Config) (c e : TCand) : Decidable (titleDup cfg c e) := by
  unfold titleDup; infer_instance

/-- Near-duplicate suppression (app.py lines 178-189): walk the sorted list,
keeping a candidate only if no already-kept candidate is a near duplicate. -/
def filteredTitleCands (cfg : Config) (doc : Doc) : List TCand :=
  (sortedTitleCands cfg doc).foldl
    (fun kept c => if kept.any (fun e => decide (titleDup cfg c e)) then kept else kept ++ [c])
    []

/-- `max(c["font_size"] for c in filtered_candidates)`. -/
def maxFontOfT (l : List TCand) : ℚ :=
  match l with
  | [] => qOfNat 0
  | x :: xs => xs.foldl (fun m c => max m c.fontSize) x.fontSize

/-- Re-scoring of the surviving title candidates (app.py lines 193-202);
note that the semantic test reads the stale `span` boldness and the stale
`page_height` of the scan, exactly as the source does at line 196. -/
def scoredTitleCands (cfg : Config) (doc : Doc) : List (TCand × ℚ) :=
  let f := filteredTitleCands cfg doc
  let mf := maxFontOfT f
  let sb := staleScanBold cfg doc
  let sh := staleScanHeight cfg doc
  f.map (fun c =>
    (c, (c.fontSize / mf * cfg.fontWeight +
         c.posScore * cfg.positionWeight +
         (if is_likely_heading c.text cfg c.fontSize (domOf doc (c.page - 1)) sb sh true
          then (3:ℚ)/2 else qOfNat 1) * cfg.semanticWeight) *
        (if c.bold then (6:ℚ)/5 else qOfNat 1)))

/-- Python `max(iterable, key=...)` over a non-empty list: the first element
attaining the maximal score (a later element replaces only on strict increase). -/
def pickBest (b : TCand × ℚ) (l : List (TCand × ℚ)) : TCand × ℚ :=
  l.foldl (fun best p => if best.2 < p.2 then p else best) b

/-- The heuristic title (app.py lines 131-205): empty when no candidate survives. -/
def heuristicTitle (cfg : Config) (doc : Doc) : String :=
  match scoredTitleCands cfg doc with
  | [] => ""
  | x :: xs => (pickBest x xs).1.text

/-- The metadata-title test of app.py line 128: a present, truthy title whose
trimmed value is neither empty nor the known junk string. -/
def metaTitleAccepted (doc : Doc) : Option String :=
  match doc.metaTitle with
  | none => none
  | some t =>
      if t = "" then none
      else if pyStrip t = "gdsgsdfg" ∨ pyStrip t = "" then none
      else some (pyStrip t)

/-- The document title: trusted metadata first, else the heuristic scan. -/
def titleOf (cfg : Config) (doc : Doc) : String :=
  match metaTitleAccepted doc with
  | some t => t
  | none => heuristicTitle cfg doc

/- ### HeadingCandidateScorer (app.py lines 207-316) -/

/-- A heading candidate. -/
structure HCand where
  level : HLevel
  text : String
  page : ℕ
  score : ℚ
  fontSize : ℚ
  y : ℚ
deriving DecidableEq, Repr

/-- The font score from the relative multipliers (app.py lines 264-273);
`0` when the dominant size is not positive or the size is below every multiplier. -/
def relFontScore (cfg : Config) (size dom : ℚ) : ℕ :=
  if qOfNat 0 < dom then
    if dom * cfg.h1Mult ≤ size then 3
    else if dom * cfg.h2Mult ≤ size then 2
    else if dom * cfg.h3Mult ≤ size then 1
    else 0
  else 0

/-- The absolute-threshold font score (app.py lines 277-282). -/
def absFontScore (size : ℚ) : ℕ :=
  if headingFontSizeThresholds.H1 ≤ size then 3
  else if headingFontSizeThresholds.H2 ≤ size then 2
  else if headingFontSizeThresholds.H3 ≤ size then 1
  else 0

/-- The combined font score (app.py lines 264-282): the absolute fallback is
taken whenever the relative score is `0` and the size passes the minimum
ratio against `lastH`, the height held by the stale `page_height` variable
(the last page of the document). -/
def fontScoreOf (cfg : Config) (size dom lastH : ℚ) : ℕ :=
  let fs := relFontScore cfg size dom
  if fs = 0 ∧ cfg.minHeadingFontFrac * lastH ≤ size then absFontScore size else fs

/-- The heading level (app.py lines 292-307): relative comparisons when the
dominant size is positive (defaulting to H3), absolute thresholds otherwise. -/
def headingLevelOf (cfg : Config) (size dom : ℚ) : HLevel :=
  if qOfNat 0 < dom then
    if dom * cfg.h1Mult ≤ size then .H1
    else if dom * cfg.h2Mult ≤ size then .H2
    else if dom * cfg.h3Mult ≤ size then .H3
    else .H3
  else
    if headingFontSizeThresholds.H1 ≤ size then .H1
    else if headingFontSizeThresholds.H2 ≤ size then .H2
    else if headingFontSizeThresholds.H3 ≤ size then .H3
    else .H3

/-- One span of the heading pass (app.py lines 245-316): the basic filters,
the font score, and on success the scored candidate. -/
def mkHeadingCand (cfg : Config) (lastH dom pw : ℚ) (ph : ℚ) (pageNo : ℕ)
    (sp : Span) : Option HCand :=
  let text := pyStrip sp.text
  if cfg.ignoreMatches text then none
  else if text = "" ∨ text.length < cfg.minHeadingChars ∨ pyIsDigitStr text then none
  else if cfg.maxHeadingChars < text.length then none
  else
    let fs := fontScoreOf cfg sp.size dom lastH
    if fs = 0 then none
    else
      let boldBonus : ℚ := if is_bold sp then 3/2 else qOfNat 1
      let semBonus : ℚ :=
        if is_likely_heading text cfg sp.size dom (is_bold sp) lastH false then 13/10
        else qOfNat 1
      let posBonus : ℚ :=
        if sp.x0 < pw * (qOfNat 1 / 5) ∨ |(sp.x0 + sp.x1)/2 - pw/2| < pw * (qOfNat 1 / 10)
        then 6/5 else qOfNat 1
      some ⟨headingLevelOf cfg sp.size dom, text, pageNo,
            qOfNat fs * boldBonus * semBonus * posBonus, sp.size, sp.y0⟩

/-- All heading candidates of the document in stream order; `lastH` is the
height of the last page, the stale value held by `page_height` during the
candidate loop. -/
def headingCandidatesOf (cfg : Config) (doc : Doc) : List HCand :=
  let lastH := ((doc.pages.getLast?).map Page.height).getD (qOfNat 0)
  doc.pages.enum.flatMap
    (fun p => p.2.spans.filterMap
      (mkHeadingCand cfg lastH (domOf doc p.1) p.2.width p.2.height (p.1 + 1)))

/- ### OutlineAssembler (app.py lines 318-347) -/

/-- The document-reading order on candidates: `(page, y_pos)` lexicographically. -/
def candLE (a b : HCand) : Prop :=
  a.page < b.page ∨ (a.page = b.page ∧ a.y ≤ b.y)

instance : DecidableRel candLE := fun a b => by unfold candLE; infer_instance

instance : IsTrans HCand candLE := by
  constructor
  intro a b c hab hbc
  unfold candLE at *
  rcases hab with h1 | ⟨h1, h1'⟩ <;> rcases hbc with h2 | ⟨h2, h2'⟩
  · exact Or.inl (h1.trans h2)
  · exact Or.inl (h2 ▸ h1)
  · exact Or.inl (h1 ▸ h2)
  · exact Or.inr ⟨h1.trans h2, h1'.trans h2'⟩

instance : IsTotal HCand candLE := by
  constructor
  intro a b
  unfold candLE
  rcases lt_trichotomy a.page b.page with h | h | h
  · exact Or.inl (Or.inl h)
  · rcases le_total a.y b.y with hy | hy
    · exact Or.inl (Or.inr ⟨h, hy⟩)
    · exact Or.inr (Or.inr ⟨h.symm, hy⟩)
  · exact Or.inr (Or.inl h)

/-- The heading candidates sorted by `(page, y_pos)` (app.py line 319). -/
def sortedHeadingCands (cfg : Config) (doc : Doc) : List HCand :=
  List.insertionSort candLE (headingCandidatesOf cfg doc)

/-- The deduplication key `(text.lower(), page, round(y_pos / 10))`. -/
abbrev SeenKey := String × ℕ × ℤ

/-- `keyOf` of a candidate (app.py line 328). -/
def keyOf (c : HCand) : SeenKey := (pyLower c.text, c.page, pyRound (c.y / 10))

/-- Projection of a candidate to its persisted entry (app.py lines 342-346). -/
def entryOf (c : HCand) : Entry := ⟨c.level, c.text, c.page⟩

/-- The level comparison of the redundancy rule (app.py lines 336-337):
the accepted entry's level strictly dominates the candidate's. -/
def levelDominates (a b : HLevel) : Prop :=
  (a = .H1 ∧ b ≠ .H1) ∨ (a = .H2 ∧ b = .H3)

instance (a b : HLevel) : Decidable (levelDominates a b) := by
  unfold levelDominates; infer_instance

/-- The full redundancy clash between an accepted entry `e` and a later entry
`f` (app.py lines 334-337): same page, texts within normalized edit distance
0.2, and `e`'s level strictly dominating `f`'s. -/
def entryClash (e f : Entry) : Prop :=
  e.page = f.page ∧
  qOfNat (edit_distance (pyLower e.text) (pyLower f.text)) <
    qOfNat (max e.text.length f.text.length) * (qOfNat 1 / 5) ∧
  levelDominates e.level f.level

instance (e f : Entry) : Decidable (entryClash e f) := by
  unfold entryClash; infer_instance

/-- One iteration of the assembly loop (app.py lines 325-347) on the
`(final_outline, seen_entries)` state. -/
def assembleStep (st : List Entry × List SeenKey) (c : HCand) : List Entry × List SeenKey :=
  let k := keyOf c
  if k ∈ st.2 then st
  else if st.1.any (fun e => decide (entryClash e (entryOf c))) then st
  else (st.1 ++ [entryOf c], k :: st.2)

/-- The assembly loop over a candidate list, from the empty state. -/
def assembleRun (l : List HCand) : List Entry × List SeenKey :=
  l.foldl assembleStep ([], [])

/-- The assembly loop instrumented to retain whole accepted candidates
(rather than their entry projections); used to reason about provenance. -/
def assembleStepC (st : List HCand × List SeenKey) (c : HCand) : List HCand × List SeenKey :=
  let k := keyOf c
  if k ∈ st.2 then st
  else if st.1.any (fun a => decide (entryClash (entryOf a) (entryOf c))) then st
  else (st.1 ++ [c], k :: st.2)

/-- The instrumented assembly loop from the empty state. -/
def assembleRunC (l : List HCand) : List HCand × List SeenKey :=
  l.foldl assembleStepC ([], [])

/-- `extract_outline` (app.py lines 98-350): the title and the assembled outline. -/
def extract_outline (cfg : Config) (doc : Doc) : Result :=
  ⟨titleOf cfg doc, (assembleRun (sortedHeadingCands cfg doc)).1⟩

/- ### Batch collaborator (process_pdfs.py lines 75-139) -/

/-- The error record persisted on a failed document. -/
structure ErrorReport where
  title : String
  outline : List Entry
  error : String
  processing_time : ℚ
deriving DecidableEq, Repr

/-- `process_single_pdf`: on success the validated result is persisted (the
typed embedding makes the dict-shape validation of lines 94-99 a no-op); on
any failure (decode error, internal exception, timeout) the error record of
lines 127-135 is persisted instead. -/
def process_single_pdf (outcome : Except String Result) (processingTime : ℚ) :
    Result ⊕ ErrorReport :=
  match outcome with
  | .ok r => .inl r
  | .error msg => .inr ⟨"", [], msg, processingTime⟩

/- ### The claim-side title scoring formula (for comparison with the code) -/

/-- The total-score formula as the specification words it: the semantic test
is evaluated with the candidate's own boldness (the code instead reads the
stale loop variable; compare `scoredTitleCands`). -/
def specTitleScore (cfg : Config) (doc : Doc) (c : TCand) : ℚ :=
  (c.fontSize / maxFontOfT (filteredTitleCands cfg doc) * cfg.fontWeight +
   c.posScore * cfg.positionWeight +
   (if is_likely_heading c.text cfg c.fontSize (domOf doc (c.page - 1)) c.bold
        (staleScanHeight cfg doc) true
    then (3:ℚ)/2 else qOfNat 1) * cfg.semanticWeight) *
  (if c.bold then (6:ℚ)/5 else qOfNat 1)

/- ### Concrete documents used in witnesses and counterexamples -/

/-- Filler span: too short to be a candidate, but it contributes its font size
to the page's dominant-size profile. -/
def fillA : Span := ⟨"ab", 10, 0, 0, 700, 5, 710⟩

/-- Second filler span at font size 10. -/
def fillB : Span := ⟨"cd", 10, 0, 0, 710, 5, 720⟩

/-- An H1-scored span: size 15 = 1.5 times the dominant 10, at a given y. -/
def spanH1y (y : ℚ) : Span := ⟨"Introduction", 15, 0, 10, y, 200, 20⟩

/-- An H2-scored span: size 12 = 1.2 times the dominant 10, at a given y. -/
def spanH2y (y : ℚ) : Span := ⟨"INTRODUCTION", 12, 0, 10, y, 200, 21⟩

/-- The minimal scenario stream: the H1-scored and H2-scored fragments are the
only heading candidates of the document, at vertical positions y1 and y2. -/
def docC5fam (y1 y2 : ℚ) : Doc :=
  ⟨none, [⟨612, 792, [fillA, fillB, spanH1y y1, spanH2y y2]⟩]⟩

/-- Scenario document: the H2 span placed before the H1 span, same y. -/
def docC5c : Doc := ⟨none, [⟨612, 792, [fillA, fillB, spanH2y 5, spanH1y 5]⟩]⟩

/-- An H2-scored span with text Introduction at the top of the page, sharing
the rounding bucket of the scenario fragments below it. -/
def introAbsorber : Span := ⟨"Introduction", 12, 0, 10, 0, 200, 15⟩

/-- Scenario stream with an extra same-key candidate accepted first: the H1
fragment precedes the H2 fragment, yet the H1 entry never appears because the
absorber already recorded their shared seen-key. -/
def docC5d : Doc :=
  ⟨none, [⟨612, 792, [fillA, fillB, introAbsorber, spanH1y 4, spanH2y 5]⟩]⟩

/-- An H3-scored span at the dominant size, high on the page. -/
def spanI10 : Span := ⟨"Introduction", 10, 0, 10, 10, 200, 20⟩

/-- An H1-scored copy of the same text lower on the page. -/
def spanI15 : Span := ⟨"Introduction", 15, 0, 10, 100, 200, 115⟩

/-- Document whose outline accepts an H3 first and the dominating H1 later. -/
def docC2 : Doc := ⟨none, [⟨612, 792, [fillA, fillB, spanI10, spanI15]⟩]⟩

/-- An H1-scored span high on the page. -/
def spanJ15 : Span := ⟨"Introduction", 15, 0, 10, 10, 200, 25⟩

/-- An H3-scored span with the same text lower on the page. -/
def spanJ10 : Span := ⟨"Introduction", 10, 0, 10, 100, 200, 110⟩

/-- Document where a candidate is dropped as redundant (H1 accepted first). -/
def docC3 : Doc := ⟨none, [⟨612, 792, [fillA, fillB, spanJ15, spanJ10]⟩]⟩

/-- Document where the H3 at y = 10 is dropped as redundant with its key left
unrecorded, and a later H1 carrying that same key is evaluated against the
redundancy check again and accepted. -/
def docC3b : Doc := ⟨none, [⟨612, 792, [fillA, fillB, spanH1y 5, spanI10, spanH1y 12]⟩]⟩

/-- Filler span at font size 40. -/
def f40a : Span := ⟨"ab", 40, 0, 0, 700, 5, 710⟩

/-- Second filler span at font size 40. -/
def f40b : Span := ⟨"cd", 40, 0, 0, 710, 5, 720⟩

/-- A span of size 14, well below the dominant size 40 of its page. -/
def spanSum : Span := ⟨"Summary", 14, 0, 10, 0, 100, 14⟩

/-- Two-page document: a tall first page with dominant size 40 and a span of
size 14, and a short last page, whose height gates the absolute fallback. -/
def docC4 : Doc := ⟨none, [⟨612, 1000, [f40a, f40b, spanSum]⟩, ⟨100, 100, []⟩]⟩

/-- A bold title candidate whose heading-likeness holds only via the final
font-size/boldness rule. -/
def spanAnn : Span := ⟨"annual report for acme", 30, 1, 10, 5, 90, 12⟩

/-- Non-bold filler span scanned after the candidate. -/
def z1 : Span := ⟨"zz", 10, 0, 0, 50, 5, 55⟩

/-- Final non-bold filler span: the stale loop variable ends on this span. -/
def z2 : Span := ⟨"zz", 10, 0, 0, 60, 5, 65⟩

/-- Document exhibiting the stale-boldness read in title re-scoring. -/
def docC6 : Doc := ⟨none, [⟨100, 100, [spanAnn, z1, z2]⟩]⟩

/-- First of two title candidates with identical scores. -/
def spanSF : Span := ⟨"Strawberry Fields", 30, 0, 10, 5, 90, 12⟩

/-- Second of two title candidates with identical scores. -/
def spanMY : Span := ⟨"Mellow Yellow", 30, 0, 10, 5, 90, 12⟩

/-- Document with a two-way tie in the title total score. -/
def docC10 : Doc := ⟨none, [⟨100, 100, [spanSF, spanMY]⟩]⟩

/-- Document carrying an untrimmed metadata title and no pages. -/
def docC8w : Doc := ⟨some " My Doc ", []⟩

/- ### Helper lemmas about the assembler -/

theorem anyMapEntry (l : List HCand) (p : Entry → Bool) :
    (l.map entryOf).any p = l.any (fun a => p (entryOf a)) := by
  induction l with
  | nil => rfl
  | cons x xs ih => simp [List.any_cons, ih]

theorem assembleFoldAgree (l : List HCand) (accC : List HCand) (seen : List SeenKey) :
    l.foldl assembleStep (accC.map entryOf, seen) =
      ((l.foldl assembleStepC (accC, seen)).1.map entryOf,
       (l.foldl assembleStepC (accC, seen)).2) := by
  induction l generalizing accC seen with
  | nil => simp
  | cons c rest ih =>
      simp only [List.foldl_cons]
      by_cases hk : keyOf c ∈ seen
      · have h1 : assembleStep (accC.map entryOf, seen) c = (accC.map entryOf, seen) := by
          simp [assembleStep, hk]
        have h2 : assembleStepC (accC, seen) c = (accC, seen) := by
          simp [assembleStepC, hk]
        rw [h1, h2, ih]
      · by_cases hr : accC.any (fun a => decide (entryClash (entryOf a) (entryOf c))) = true
        · have h1 : assembleStep (accC.map entryOf, seen) c = (accC.map entryOf, seen) := by
            simp only [assembleStep, anyMapEntry]
            simp [hk, hr]
          have h2 : assembleStepC (accC, seen) c = (accC, seen) := by
            simp [assembleStepC, hk, hr]
          rw [h1, h2, ih]
        · have h1 : assembleStep (accC.map entryOf, seen) c =
              ((accC ++ [c]).map entryOf, keyOf c :: seen) := by
            simp only [assembleStep, anyMapEntry]
            simp [hk, hr]
          have h2 : assembleStepC (accC, seen) c = (accC ++ [c], keyOf c :: seen) := by
            simp [assembleStepC, hk, hr]
          rw [h1, h2, ih]

theorem assembleRun_eq (l : List HCand) :
    assembleRun l = ((assembleRunC l).1.map entryOf, (assembleRunC l).2) := by
  have h := assembleFoldAgree l [] []
  simpa [assembleRun, assembleRunC] using h

theorem assembleFoldSub (l : List HCand) (acc : List HCand) (seen : List SeenKey) :
    ∃ s, (l.foldl assembleStepC (acc, seen)).1 = acc ++ s ∧ s.Sublist l := by
  induction l generalizing acc seen with
  | nil => exact ⟨[], by simp, List.nil_sublist []⟩
  | cons c rest ih =>
      simp only [List.foldl_cons]
      by_cases hk : keyOf c ∈ seen
      · have h2 : assembleStepC (acc, seen) c = (acc, seen) := by simp [assembleStepC, hk]
        rw [h2]
        obtain ⟨s, hs, hsub⟩ := ih acc seen
        exact ⟨s, hs, hsub.cons c⟩
      · by_cases hr : acc.any (fun a => decide (entryClash (entryOf a) (entryOf c))) = true
        · have h2 : assembleStepC (acc, seen) c = (acc, seen) := by
            simp [assembleStepC, hk, hr]
          rw [h2]
          obtain ⟨s, hs, hsub⟩ := ih acc seen
          exact ⟨s, hs, hsub.cons c⟩
        · have h2 : assembleStepC (acc, seen) c = (acc ++ [c], keyOf c :: seen) := by
            simp [assembleStepC, hk, hr]
          rw [h2]
          obtain ⟨s, hs, hsub⟩ := ih (acc ++ [c]) (keyOf c :: seen)
          refine ⟨c :: s, ?_, hsub.cons₂ c⟩
          rw [hs, List.append_assoc, List.singleton_append]

theorem assembleFoldPairwise (l : List HCand) (acc : List Entry) (seen : List SeenKey)
    (h : acc.Pairwise (fun e f => ¬ entryClash e f)) :
    ((l.foldl assembleStep (acc, seen)).1).Pairwise (fun e f => ¬ entryClash e f) := by
  induction l generalizing acc seen with
  | nil => exact h
  | cons c rest ih =>
      simp only [List.foldl_cons]
      by_cases hk : keyOf c ∈ seen
      · have h2 : assembleStep (acc, seen) c = (acc, seen) := by simp [assembleStep, hk]
        rw [h2]; exact ih acc seen h
      · by_cases hr : acc.any (fun e => decide (entryClash e (entryOf c))) = true
        · have h2 : assembleStep (acc, seen) c = (acc, seen) := by
            simp [assembleStep, hk, hr]
          rw [h2]; exact ih acc seen h
        · have h2 : assembleStep (acc, seen) c = (acc ++ [entryOf c], keyOf c :: seen) := by
            simp [assembleStep, hk, hr]
          rw [h2]
          apply ih
          rw [List.pairwise_append]
          refine ⟨h, List.pairwise_singleton _ _, ?_⟩
          intro a ha b hb
          rw [List.mem_singleton] at hb
          subst hb
          intro hclash
          apply hr
          rw [List.any_eq_true]
          exact ⟨a, ha, by simpa using hclash⟩

theorem assembleFoldSeen (l : List HCand) (acc : List HCand) (seen : List SeenKey)
    (h : ∀ k, k ∈ seen ↔ ∃ c ∈ acc, keyOf c = k) :
    ∀ k, k ∈ (l.foldl assembleStepC (acc, seen)).2 ↔
      ∃ c ∈ (l.foldl assembleStepC (acc, seen)).1, keyOf c = k := by
  induction l generalizing acc seen with
  | nil => exact h
  | cons c rest ih =>
      simp only [List.foldl_cons]
      by_cases hk : keyOf c ∈ seen
      · have h2 : assembleStepC (acc, seen) c = (acc, seen) := by simp [assembleStepC, hk]
        rw [h2]; exact ih acc seen h
      · by_cases hr : acc.any (fun a => decide (entryClash (entryOf a) (entryOf c))) = true
        · have h2 : assembleStepC (acc, seen) c = (acc, seen) := by
            simp [assembleStepC, hk, hr]
          rw [h2]; exact ih acc seen h
        · have h2 : assembleStepC (acc, seen) c = (acc ++ [c], keyOf c :: seen) := by
            simp [assembleStepC, hk, hr]
          rw [h2]
          apply ih
          intro k
          constructor
          · intro hks
            rcases List.mem_cons.1 hks with h1 | h2
            · exact ⟨c, List.mem_append_right _ (List.mem_singleton_self c), h1.symm⟩
            · obtain ⟨a, ha, hka⟩ := (h k).1 h2
              exact ⟨a, List.mem_append_left _ ha, hka⟩
          · rintro ⟨a, ha, hka⟩
            rcases List.mem_append.1 ha with ha1 | ha1
            · exact List.mem_cons_of_mem _ ((h k).2 ⟨a, ha1, hka⟩)
            · rw [List.mem_singleton] at ha1
              rw [← hka, ha1]
              exact List.mem_cons_self _ _

theorem pickBest_split (l : List (TCand × ℚ)) :
    ∀ b : TCand × ℚ, ∃ l₁ l₂,
      b :: l = l₁ ++ (pickBest b l) :: l₂ ∧
      (∀ q ∈ b :: l, q.2 ≤ (pickBest b l).2) ∧
      (∀ q ∈ l₁, q.2 < (pickBest b l).2) := by
  induction l with
  | nil =>
      intro b
      exact ⟨[], [], rfl, by simp [pickBest], by simp⟩
  | cons x xs ih =>
      intro b
      have hstep : pickBest b (x :: xs) = pickBest (if b.2 < x.2 then x else b) xs := by
        simp [pickBest, List.foldl_cons]
      by_cases hbx : b.2 < x.2
      · obtain ⟨l₁, l₂, heq, hmax, hlt⟩ := ih x
        rw [if_pos hbx] at hstep
        refine ⟨b :: l₁, l₂, ?_, ?_, ?_⟩
        · rw [hstep, List.cons_append]
          exact congrArg (b :: ·) heq
        · intro q hq
          rw [hstep]
          rcases List.mem_cons.1 hq with rfl | hq'
          · exact le_of_lt (lt_of_lt_of_le hbx (hmax x (List.mem_cons_self x xs)))
          · exact hmax q hq'
        · intro q hq
          rw [hstep]
          rcases List.mem_cons.1 hq with rfl | hq'
          · exact lt_of_lt_of_le hbx (hmax x (List.mem_cons_self x xs))
          · exact hlt q hq'
      · obtain ⟨l₁, l₂, heq, hmax, hlt⟩ := ih b
        rw [if_neg hbx] at hstep
        push_neg at hbx
        rcases l₁ with _ | ⟨a, t⟩
        · rw [List.nil_append] at heq
          have hb : b = pickBest b xs := (List.cons_eq_cons.1 heq).1
          refine ⟨[], x :: xs, ?_, ?_, by simp⟩
          · rw [hstep, List.nil_append, ← hb]
          · intro q hq
            rw [hstep]
            rcases List.mem_cons.1 hq with h1 | hq1
            · rw [h1]
              exact hmax b (List.mem_cons_self b xs)
            · rcases List.mem_cons.1 hq1 with h2 | hq2
              · rw [h2]
                exact hbx.trans (le_of_eq (congrArg Prod.snd hb))
              · exact hmax q (List.mem_cons_of_mem b hq2)
        · have ha : a = b := (List.cons_eq_cons.1 (by simpa using heq)).1.symm
          have hxs : xs = t ++ pickBest b xs :: l₂ :=
            (List.cons_eq_cons.1 (by simpa using heq)).2
          have hbm : b.2 < (pickBest b xs).2 := by
            have := hlt a (List.mem_cons_self a t)
            rwa [ha] at this
          refine ⟨b :: x :: t, l₂, ?_, ?_, ?_⟩
          · rw [hstep]
            simp only [List.cons_append]
            rw [← hxs]
          · intro q hq
            rw [hstep]
            rcases List.mem_cons.1 hq with h1 | hq1
            · rw [h1]
              exact hmax b (List.mem_cons_self b xs)
            · rcases List.mem_cons.1 hq1 with h2 | hq2
              · rw [h2]
                exact le_trans hbx (le_of_lt hbm)
              · exact hmax q (List.mem_cons_of_mem b hq2)
          · intro q hq
            rw [hstep]
            rcases List.mem_cons.1 hq with h1 | hq1
            · rw [h1]
              exact hbm
            · rcases List.mem_cons.1 hq1 with h2 | hq2
              · rw [h2]
                exact lt_of_le_of_lt hbx hbm
              · exact hlt q (List.mem_cons_of_mem a hq2)

/- ### The claims -/

/-- C1: for every configuration and input fragment stream, the outline
returned by extract_outline is in document reading order: it is the
entry-projection of the list of accepted candidates, and that list is
pairwise non-decreasing in (page, yPosition) — every later entry comes from
a candidate whose page is at least the earlier one's, and candidates of the
same page appear in non-decreasing vertical position. -/
theorem c1_reading_order (cfg : Config) (doc : Doc) :
    (extract_outline cfg doc).outline =
      ((assembleRunC (sortedHeadingCands cfg doc)).1).map entryOf ∧
    ((assembleRunC (sortedHeadingCands cfg doc)).1).Pairwise candLE := by
  constructor
  · show (assembleRun (sortedHeadingCands cfg doc)).1 = _
    rw [assembleRun_eq]
  · obtain ⟨s, hs, hsub⟩ := assembleFoldSub (sortedHeadingCands cfg doc) [] []
    have hs' : (assembleRunC (sortedHeadingCands cfg doc)).1 = s := by
      simpa [assembleRunC] using hs
    rw [hs']
    have hsorted : (sortedHeadingCands cfg doc).Pairwise candLE :=
      List.sorted_insertionSort candLE (headingCandidatesOf cfg doc)
    exact List.Pairwise.sublist hsub hsorted

/-- C2 (amended): for every configuration and fragment stream, and every pair
of entries of the final outline in acceptance order, the earlier entry does
not clash with the later one: they are on different pages, or their texts are
at normalized edit distance at least 0.2, or the earlier entry's level does
not strictly dominate the later entry's level.  (The symmetric statement of
the original claim fails: a later entry may dominate an earlier one.) -/
theorem c2_no_earlier_dominating_duplicate (cfg : Config) (doc : Doc) :
    ((extract_outline cfg doc).outline).Pairwise (fun e f => ¬ entryClash e f) := by
  show ((assembleRun (sortedHeadingCands cfg doc)).1).Pairwise _
  exact assembleFoldPairwise _ [] [] List.Pairwise.nil

/-- C2 counterexample: on docC2 the final outline holds an H3 entry followed
by an H1 entry with identical text on the same page — distance 0 is below the
0.2 bound and H1 strictly dominates H3, refuting the symmetric invariant. -/
theorem c2_counterexample :
    (extract_outline defaultConfig docC2).outline =
      [⟨HLevel.H3, "Introduction", 1⟩, ⟨HLevel.H1, "Introduction", 1⟩] ∧
    entryClash ⟨HLevel.H1, "Introduction", 1⟩ ⟨HLevel.H3, "Introduction", 1⟩ := by
  refine ⟨by decide, by decide⟩

/-- C3 (amended): a seen-key is recorded exactly when its candidate is
accepted into the outline: for every candidate list, a key belongs to the
final seen set if and only if some accepted candidate carries it.  A
candidate dropped as redundant leaves no trace in the seen set, so a later
candidate with the same key is evaluated against the redundancy check again. -/
theorem c3_seen_records_accepted (l : List HCand) (k : SeenKey) :
    k ∈ (assembleRunC l).2 ↔ ∃ c ∈ (assembleRunC l).1, keyOf c = k := by
  exact assembleFoldSeen l [] [] (by simp) k

/-- C3 counterexample: on docC3 the second candidate (key
("introduction", 1, 10)) is evaluated for the first time, dropped as
redundant, and its key is not recorded in the seen set, refuting the claim
that the key is recorded regardless of the redundancy outcome.  On docC3b the
consequence fails observably: the H3 candidate at bucket ("introduction", 1, 1)
is dropped without recording its key, and the later H1 candidate carrying that
same key is evaluated against the redundancy check again — and accepted, so
the outline ends with two H1 entries and the key enters the seen set only
then. -/
theorem c3_counterexample :
    (sortedHeadingCands defaultConfig docC3).map keyOf =
      [("introduction", 1, 1), ("introduction", 1, 10)] ∧
    (assembleRun (sortedHeadingCands defaultConfig docC3)).2 = [("introduction", 1, 1)] ∧
    (("introduction", 1, 10) : SeenKey) ∉
      (assembleRun (sortedHeadingCands defaultConfig docC3)).2 ∧
    (sortedHeadingCands defaultConfig docC3b).map (fun c => (c.level, keyOf c)) =
      [(HLevel.H1, ("introduction", 1, 0)),
       (HLevel.H3, ("introduction", 1, 1)),
       (HLevel.H1, ("introduction", 1, 1))] ∧
    (extract_outline defaultConfig docC3b).outline =
      [⟨HLevel.H1, "Introduction", 1⟩, ⟨HLevel.H1, "Introduction", 1⟩] ∧
    (assembleRun (sortedHeadingCands defaultConfig docC3b)).2 =
      [("introduction", 1, 1), ("introduction", 1, 0)] := by
  refine ⟨by decide, by decide, by decide, by decide, by decide, by decide⟩

/-- C4 (amended): with the default configuration, the font score of a
fragment is given by the relative multipliers (3 at 1.5 times the dominant,
2 at 1.2 times, 1 at 1.0 times) whenever the page's dominant size is
positive and the size is at least 1.0 times it; the absolute thresholds
(H1 = 18, H2 = 14, H3 = 12), gated by the minimum size-to-page-height ratio
taken against the stale page height (the last page of the document), are
used exactly when the relative comparison yields 0 — that is, when the
dominant size is not positive or the fragment's size is below 1.0 times
a positive dominant size.  Such a below-dominant fragment can therefore
still become a heading candidate through the absolute fallback. -/
theorem c4_font_score_fallback (size dom lastH : ℚ) :
    (0 < dom → dom * defaultConfig.h3Mult ≤ size →
      fontScoreOf defaultConfig size dom lastH =
        (if dom * (3/2) ≤ size then 3 else if dom * (6/5) ≤ size then 2 else 1)) ∧
    (relFontScore defaultConfig size dom = 0 →
      fontScoreOf defaultConfig size dom lastH =
        (if defaultConfig.minHeadingFontFrac * lastH ≤ size then absFontScore size else 0)) ∧
    (0 < dom → size < dom * defaultConfig.h3Mult →
      relFontScore defaultConfig size dom = 0) := by
  refine ⟨?_, ?_, ?_⟩
  · intro hd hs
    have hs1 : dom * 1 ≤ size := hs
    have hrel : relFontScore defaultConfig size dom =
        (if dom * (3/2) ≤ size then 3 else if dom * (6/5) ≤ size then 2 else 1) := by
      show (if 0 < dom then
              if dom * (3/2) ≤ size then 3
              else if dom * (6/5) ≤ size then 2
              else if dom * 1 ≤ size then 1
              else 0
            else 0) = _
      rw [if_pos hd, if_pos hs1]
    have hne : relFontScore defaultConfig size dom ≠ 0 := by
      rw [hrel]
      split_ifs <;> simp
    show (if relFontScore defaultConfig size dom = 0 ∧
            defaultConfig.minHeadingFontFrac * lastH ≤ size
          then absFontScore size else relFontScore defaultConfig size dom) = _
    rw [if_neg (fun h => hne h.1), hrel]
  · intro hr
    show (if relFontScore defaultConfig size dom = 0 ∧
            defaultConfig.minHeadingFontFrac * lastH ≤ size
          then absFontScore size else relFontScore defaultConfig size dom) = _
    rw [hr]
    by_cases hg : defaultConfig.minHeadingFontFrac * lastH ≤ size
    · rw [if_pos ⟨rfl, hg⟩, if_pos hg]
    · rw [if_neg (fun h => hg h.2), if_neg hg]
  · intro hd hs
    have hs1 : ¬ dom * 1 ≤ size := not_le.2 hs
    have h1 : ¬ dom * (3/2) ≤ size := fun h => hs1 (by linarith)
    have h2 : ¬ dom * (6/5) ≤ size := fun h => hs1 (by linarith)
    show (if 0 < dom then
            if dom * (3/2) ≤ size then 3
            else if dom * (6/5) ≤ size then 2
            else if dom * 1 ≤ size then 1
            else 0
          else 0) = 0
    rw [if_pos hd, if_neg h1, if_neg h2, if_neg hs1]

/-- C4 witness: at size 14 with dominant 40 and last-page height 100, the
relative score is 0 and the absolute fallback applies. -/
theorem c4_witness :
    relFontScore defaultConfig 14 40 = 0 ∧
    fontScoreOf defaultConfig 14 40 100 =
      (if defaultConfig.minHeadingFontFrac * 100 ≤ (14:ℚ) then absFontScore 14 else 0) := by
  have h0 := (c4_font_score_fallback 14 40 100).2.2 (by norm_num) (by decide)
  exact ⟨h0, (c4_font_score_fallback 14 40 100).2.1 h0⟩

/-- C4 counterexample: in docC4 the size-14 span sits below the positive
dominant size 40 of its page yet becomes an H3 heading candidate through the
absolute fallback; moreover the ratio gate that admits it uses the height of
the last page (100), while the fragment's own page height (1000) would have
rejected it. -/
theorem c4_counterexample :
    (headingCandidatesOf defaultConfig docC4).map
        (fun c => (c.level, c.text, c.page, c.fontSize)) =
      [(HLevel.H3, "Summary", 1, (14:ℚ))] ∧
    domOf docC4 0 = 40 ∧
    (14:ℚ) < 40 * defaultConfig.h3Mult ∧
    ¬ (defaultConfig.minHeadingFontFrac * 1000 ≤ (14:ℚ)) ∧
    defaultConfig.minHeadingFontFrac * 100 ≤ (14:ℚ) := by
  refine ⟨by decide, by decide, by decide, by decide, by decide⟩

set_option maxHeartbeats 1600000

/-- C5 (amended): in the minimal scenario stream docC5fam y1 y2, whose only
heading candidates are the fragment "Introduction" scored H1 at vertical
position y1 and the fragment "INTRODUCTION" scored H2 at y2 on the same page,
for every pair of positions with the H1 fragment not below the H2 fragment
(y1 at most y2 — covering in particular every near-identical placement), only
the H1 entry survives assembly: when the two positions round to the same
seen-key bucket the H2 duplicate is skipped by the shared key, and otherwise
it is dropped as redundant.  (With the H2 fragment first, or with further
same-page candidates sharing the key, the H1 entry can instead be lost — see
the counterexample.) -/
theorem c5_h1_first_survives (y1 y2 : ℚ) (h : y1 ≤ y2) :
    (headingCandidatesOf defaultConfig (docC5fam y1 y2)).map
        (fun c => (c.level, c.text, c.y)) =
      [(HLevel.H1, "Introduction", y1), (HLevel.H2, "INTRODUCTION", y2)] ∧
    (extract_outline defaultConfig (docC5fam y1 y2)).outline =
      [⟨HLevel.H1, "Introduction", 1⟩] := by
  have hfa : mkHeadingCand defaultConfig 792 10 612 792 1 fillA = none := rfl
  have hfb : mkHeadingCand defaultConfig 792 10 612 792 1 fillB = none := rfl
  have hA : (mkHeadingCand defaultConfig 792 10 612 792 1 (spanH1y y1)).isSome = true := rfl
  have hB : (mkHeadingCand defaultConfig 792 10 612 792 1 (spanH2y y2)).isSome = true := rfl
  have haL : (mkHeadingCand defaultConfig 792 10 612 792 1 (spanH1y y1)).map
      (fun c => c.level) = some HLevel.H1 := rfl
  have haT : (mkHeadingCand defaultConfig 792 10 612 792 1 (spanH1y y1)).map
      (fun c => c.text) = some "Introduction" := rfl
  have haP : (mkHeadingCand defaultConfig 792 10 612 792 1 (spanH1y y1)).map
      (fun c => c.page) = some 1 := rfl
  have haF : (mkHeadingCand defaultConfig 792 10 612 792 1 (spanH1y y1)).map
      (fun c => c.fontSize) = some 15 := rfl
  have haY : (mkHeadingCand defaultConfig 792 10 612 792 1 (spanH1y y1)).map
      (fun c => c.y) = some y1 := rfl
  have hbL : (mkHeadingCand defaultConfig 792 10 612 792 1 (spanH2y y2)).map
      (fun c => c.level) = some HLevel.H2 := rfl
  have hbT : (mkHeadingCand defaultConfig 792 10 612 792 1 (spanH2y y2)).map
      (fun c => c.text) = some "INTRODUCTION" := rfl
  have hbP : (mkHeadingCand defaultConfig 792 10 612 792 1 (spanH2y y2)).map
      (fun c => c.page) = some 1 := rfl
  have hbF : (mkHeadingCand defaultConfig 792 10 612 792 1 (spanH2y y2)).map
      (fun c => c.fontSize) = some 12 := rfl
  have hbY : (mkHeadingCand defaultConfig 792 10 612 792 1 (spanH2y y2)).map
      (fun c => c.y) = some y2 := rfl
  obtain ⟨a, ha⟩ := Option.isSome_iff_exists.mp hA
  obtain ⟨b, hb⟩ := Option.isSome_iff_exists.mp hB
  rw [ha, Option.map_some'] at haL haT haP haF haY
  rw [hb, Option.map_some'] at hbL hbT hbP hbF hbY
  simp only [Option.some.injEq] at haL haT haP haF haY hbL hbT hbP hbF hbY
  have ha2 : mkHeadingCand defaultConfig 792 10 612 792 1 (spanH1y y1) =
      some ⟨HLevel.H1, "Introduction", 1, a.score, 15, y1⟩ := by
    rw [ha, ← haL, ← haT, ← haP, ← haF, ← haY]
  have hb2 : mkHeadingCand defaultConfig 792 10 612 792 1 (spanH2y y2) =
      some ⟨HLevel.H2, "INTRODUCTION", 1, b.score, 12, y2⟩ := by
    rw [hb, ← hbL, ← hbT, ← hbP, ← hbF, ← hbY]
  have hdom : domOf (docC5fam y1 y2) 0 = 10 := by
    show dominantFontSize [10, 10, 15, 12] = 10
    decide
  have hflat : headingCandidatesOf defaultConfig (docC5fam y1 y2) =
      List.filterMap (mkHeadingCand defaultConfig 792 (domOf (docC5fam y1 y2) 0) 612 792 1)
        [fillA, fillB, spanH1y y1, spanH2y y2] ++ [] := rfl
  obtain ⟨s1, s2, hc⟩ : ∃ s1 s2,
      headingCandidatesOf defaultConfig (docC5fam y1 y2) =
        [⟨HLevel.H1, "Introduction", 1, s1, 15, y1⟩,
         ⟨HLevel.H2, "INTRODUCTION", 1, s2, 12, y2⟩] := by
    refine ⟨a.score, b.score, ?_⟩
    rw [hflat, hdom, List.append_nil]
    simp only [List.filterMap_cons, List.filterMap_nil, hfa, hfb, ha2, hb2]
  constructor
  · rw [hc]
    rfl
  · have hle : candLE ⟨HLevel.H1, "Introduction", 1, s1, 15, y1⟩
        ⟨HLevel.H2, "INTRODUCTION", 1, s2, 12, y2⟩ := Or.inr ⟨rfl, h⟩
    have hsort : sortedHeadingCands defaultConfig (docC5fam y1 y2) =
        [⟨HLevel.H1, "Introduction", 1, s1, 15, y1⟩,
         ⟨HLevel.H2, "INTRODUCTION", 1, s2, 12, y2⟩] := by
      show List.insertionSort candLE (headingCandidatesOf defaultConfig (docC5fam y1 y2)) = _
      rw [hc]
      simp only [List.insertionSort, List.orderedInsert]
      rw [if_pos hle]
    show (assembleRun (sortedHeadingCands defaultConfig (docC5fam y1 y2))).1 = _
    rw [hsort]
    have hstep1 : assembleStep ([], [])
        (⟨HLevel.H1, "Introduction", 1, s1, 15, y1⟩ : HCand) =
        ([⟨HLevel.H1, "Introduction", 1⟩],
         [(pyLower "Introduction", 1, pyRound (y1 / 10))]) := by
      simp [assembleStep, keyOf, entryOf]
    show (assembleStep (assembleStep ([], [])
        ⟨HLevel.H1, "Introduction", 1, s1, 15, y1⟩)
        ⟨HLevel.H2, "INTRODUCTION", 1, s2, 12, y2⟩).1 = _
    rw [hstep1]
    by_cases hk : pyRound (y2 / 10) = pyRound (y1 / 10)
    · have hkeq : keyOf (⟨HLevel.H2, "INTRODUCTION", 1, s2, 12, y2⟩ : HCand) =
          (pyLower "Introduction", 1, pyRound (y1 / 10)) := by
        show (pyLower "INTRODUCTION", (1:ℕ), pyRound (y2 / 10)) = _
        rw [hk]
        rfl
      have hstep2 : assembleStep
          ([⟨HLevel.H1, "Introduction", 1⟩],
           [(pyLower "Introduction", 1, pyRound (y1 / 10))])
          (⟨HLevel.H2, "INTRODUCTION", 1, s2, 12, y2⟩ : HCand) =
          ([⟨HLevel.H1, "Introduction", 1⟩],
           [(pyLower "Introduction", 1, pyRound (y1 / 10))]) := by
        simp [assembleStep, hkeq]
      rw [hstep2]
    · have hkne : keyOf (⟨HLevel.H2, "INTRODUCTION", 1, s2, 12, y2⟩ : HCand) ∉
          ([(pyLower "Introduction", 1, pyRound (y1 / 10))] : List SeenKey) := by
        simp only [List.mem_singleton]
        intro he
        apply hk
        have h3 := congrArg (fun k : SeenKey => k.2.2) he
        simpa using h3
      have hred : ([⟨HLevel.H1, "Introduction", 1⟩] : List Entry).any
          (fun e => decide (entryClash e ⟨HLevel.H2, "INTRODUCTION", 1⟩)) = true := by
        decide
      have hstep2 : assembleStep
          ([⟨HLevel.H1, "Introduction", 1⟩],
           [(pyLower "Introduction", 1, pyRound (y1 / 10))])
          (⟨HLevel.H2, "INTRODUCTION", 1, s2, 12, y2⟩ : HCand) =
          ([⟨HLevel.H1, "Introduction", 1⟩],
           [(pyLower "Introduction", 1, pyRound (y1 / 10))]) := by
        simp [assembleStep, entryOf, hkne, hred]
      rw [hstep2]

/-- C5 witness: the amended statement applied at positions 5 and 6. -/
theorem c5_witness :
    (headingCandidatesOf defaultConfig (docC5fam 5 6)).map
        (fun c => (c.level, c.text, c.y)) =
      [(HLevel.H1, "Introduction", (5:ℚ)), (HLevel.H2, "INTRODUCTION", (6:ℚ))] ∧
    (extract_outline defaultConfig (docC5fam 5 6)).outline =
      [⟨HLevel.H1, "Introduction", 1⟩] :=
  c5_h1_first_survives 5 6 (by norm_num)

/-- C5 counterexample: with the H2-scored fragment earlier in the stream at
the same vertical position (docC5c), the H2 entry is accepted and the later
H1 candidate is skipped by the shared seen-key, so the H1 entry does not
appear — refuting the claim that only the H1 entry survives in every such
stream.  The docC5d conjuncts show that even the H1-first proviso fails in
general streams: an earlier accepted candidate with the shared seen-key
absorbs both scenario fragments, so no H1 entry appears although the H1
fragment precedes the H2 fragment. -/
theorem c5_counterexample :
    (headingCandidatesOf defaultConfig docC5c).map (fun c => (c.level, c.text)) =
      [(HLevel.H2, "INTRODUCTION"), (HLevel.H1, "Introduction")] ∧
    (extract_outline defaultConfig docC5c).outline = [⟨HLevel.H2, "INTRODUCTION", 1⟩] ∧
    (⟨HLevel.H1, "Introduction", 1⟩ : Entry) ∉
      (extract_outline defaultConfig docC5c).outline ∧
    (headingCandidatesOf defaultConfig docC5d).map (fun c => (c.level, c.text, c.y)) =
      [(HLevel.H2, "Introduction", (0:ℚ)), (HLevel.H1, "Introduction", (4:ℚ)),
       (HLevel.H2, "INTRODUCTION", (5:ℚ))] ∧
    (extract_outline defaultConfig docC5d).outline = [⟨HLevel.H2, "Introduction", 1⟩] ∧
    (⟨HLevel.H1, "Introduction", 1⟩ : Entry) ∉
      (extract_outline defaultConfig docC5d).outline := by
  refine ⟨by decide, by decide, by decide, by decide, by decide, by decide⟩

/-- C6: on docC6 the single surviving title candidate is bold, but the title
re-scoring evaluates the heading-likeness test with the boldness of the last
span iterated by the scan (false here), yielding total score 5991/5000; the
formula of the claim, which uses the candidate's own boldness, yields
6891/5000 instead.  The code reads the stale loop variable span at app.py
line 196 where every sibling argument comes from candidate. -/
theorem c6_stale_semantics :
    scoredTitleCands defaultConfig docC6 =
      [(⟨"annual report for acme", 30, 197/200, 1, true, 5⟩, 5991/5000)] ∧
    specTitleScore defaultConfig docC6 ⟨"annual report for acme", 30, 197/200, 1, true, 5⟩ =
      6891/5000 ∧
    ((5991:ℚ)/5000) ≠ ((6891:ℚ)/5000) ∧
    staleScanBold defaultConfig docC6 = false := by
  refine ⟨by decide, by decide, by decide, by decide⟩

/-- C7 (amended): whenever a text reaches the final rule of the shared
heading-likeness test (none of the earlier rules decided it), the predicate
accepts exactly when the dominant font size is positive, the font size
strictly exceeds 1.2 times it, and the fragment is bold.  In particular,
for dominant size 0 the predicate rejects (the original claim asserted
acceptance for every dominant size, including 0). -/
theorem c7_font_rule (cfg : Config) (text : String) (fontSize dominantFontSize : ℚ)
    (isBoldText : Bool) (pageHeight : ℚ) (isTitleCandidate : Bool)
    (h : reachesFontRule text cfg isTitleCandidate) :
    (is_likely_heading text cfg fontSize dominantFontSize isBoldText pageHeight
        isTitleCandidate = true ↔
      (0 < dominantFontSize ∧ dominantFontSize * (6/5) < fontSize ∧ isBoldText = true)) := by
  obtain ⟨h1, h2, h3, h4, h5, h6, h7, h8, h9⟩ := h
  unfold is_likely_heading
  simp only [h3, h4, h5, h6, h7, h8, h9, if_neg h1, if_neg h2, Bool.false_eq_true,
    if_false, Bool.and_eq_true, decide_eq_true_eq]
  tauto

/-- C7 witness: the text "annual report for acme" reaches the final rule, and
with font size 20, dominant size 10 and boldness it is accepted. -/
theorem c7_witness :
    is_likely_heading "annual report for acme" defaultConfig 20 10 true 0 false = true := by
  exact (c7_font_rule defaultConfig "annual report for acme" 20 10 true 0 false
    (by decide)).mpr ⟨by norm_num, by norm_num, rfl⟩

/-- C7 counterexample: the same text reaches the final rule and is bold with
font size 20 exceeding 1.2 times the dominant size 0, yet the predicate
rejects — refuting acceptance for every dominant size including 0. -/
theorem c7_counterexample :
    reachesFontRule "annual report for acme" defaultConfig false ∧
    (0:ℚ) * (6/5) < 20 ∧
    is_likely_heading "annual report for acme" defaultConfig 20 0 true 0 false = false := by
  refine ⟨by decide, by norm_num, by decide⟩

/-- C8: whenever the document metadata supplies a title whose trimmed value
is non-empty and different from the junk blacklist entry, extract_outline
returns exactly that trimmed title, and the heuristic scan never overrides
it, for every fragment stream. -/
theorem c8_metadata_title (cfg : Config) (doc : Doc) (t : String)
    (hm : doc.metaTitle = some t) (h1 : pyStrip t ≠ "") (h2 : pyStrip t ≠ "gdsgsdfg") :
    (extract_outline cfg doc).title = pyStrip t := by
  have ht : t ≠ "" := by
    intro h
    apply h1
    rw [h]
    rfl
  show titleOf cfg doc = pyStrip t
  unfold titleOf metaTitleAccepted
  rw [hm]
  simp only [if_neg ht]
  rw [if_neg (by simp [h1, h2])]

/-- C8 witness: a metadata title " My Doc " is trimmed and returned. -/
theorem c8_witness : (extract_outline defaultConfig docC8w).title = pyStrip " My Doc " := by
  exact c8_metadata_title defaultConfig docC8w " My Doc " rfl (by decide) (by decide)

/-- C9: whenever processing a single document fails (decode error, internal
exception, or timeout), the record persisted for that document is exactly
an empty title, an empty outline, the error message and the processing time
— never a partial outline. -/
theorem c9_error_record (msg : String) (t : ℚ) :
    process_single_pdf (Except.error msg) t =
      Sum.inr ⟨"", [], msg, t⟩ := rfl

/-- C10: when the metadata title is absent and the filtered title-candidate
list (in its descending (fontSize, positionScore, isBold) sort order) is
non-empty, the chosen title is the text of the first candidate in that order
attaining the maximal total score: the scored list splits around the chosen
candidate so that every candidate strictly before it scores strictly less,
and no candidate anywhere scores more — so title selection is deterministic
under score ties. -/
theorem c10_first_max (cfg : Config) (doc : Doc)
    (hm : metaTitleAccepted doc = none) (x : TCand × ℚ) (xs : List (TCand × ℚ))
    (hs : scoredTitleCands cfg doc = x :: xs) :
    ∃ l₁ c s l₂, x :: xs = l₁ ++ (c, s) :: l₂ ∧
      (extract_outline cfg doc).title = c.text ∧
      (∀ q ∈ x :: xs, q.2 ≤ s) ∧
      (∀ q ∈ l₁, q.2 < s) := by
  obtain ⟨l₁, l₂, heq, hmax, hlt⟩ := pickBest_split xs x
  refine ⟨l₁, (pickBest x xs).1, (pickBest x xs).2, l₂, ?_, ?_, hmax, hlt⟩
  · simpa using heq
  · show titleOf cfg doc = _
    unfold titleOf
    rw [hm]
    unfold heuristicTitle
    rw [hs]

/-- C10 witness: on docC10 both surviving candidates score 2297/2000; the
theorem applies and the split names the first of the tied candidates. -/
theorem c10_witness :
    ∃ l₁ c s l₂,
      [((⟨"Strawberry Fields", 30, 197/200, 1, false, 5⟩ : TCand), (2297:ℚ)/2000),
       ((⟨"Mellow Yellow", 30, 197/200, 1, false, 5⟩ : TCand), (2297:ℚ)/2000)] =
        l₁ ++ (c, s) :: l₂ ∧
      (extract_outline defaultConfig docC10).title = c.text ∧
      (∀ q ∈ [((⟨"Strawberry Fields", 30, 197/200, 1, false, 5⟩ : TCand), (2297:ℚ)/2000),
              ((⟨"Mellow Yellow", 30, 197/200, 1, false, 5⟩ : TCand), (2297:ℚ)/2000)],
        q.2 ≤ s) ∧
      (∀ q ∈ l₁, q.2 < s) := by
  exact c10_first_max defaultConfig docC10 rfl
    (⟨"Strawberry Fields", 30, 197/200, 1, false, 5⟩, (2297:ℚ)/2000)
    [(⟨"Mellow Yellow", 30, 197/200, 1, false, 5⟩, (2297:ℚ)/2000)]
    (by decide)
